import Mathlib

/-!
Verification of the sqlbuilder table/join core (`src/sqlbuilder/table.go`).

The embedding mirrors the Go source: strings stay `String`, the output
`bytes.Buffer` becomes an explicit `String` threaded through serialization,
Go's `error` results become `Option String` / `Except String`, and a Go
`panic` is a distinguished `GoResult.panicked` outcome (abrupt termination,
as opposed to a recoverable error value).  Columns are mutable heap objects
in Go (interface values holding pointers), so they are modelled as cells of
an explicit store, and tables hold references (indices) into that store;
this makes the sharing of the column slice between a table and its
`ForceIndex` copy, and the in-place rebinding done by `SetAlias`,
observable in the model.
-/

/-- Modelled from the spec: the identifier validator (`validIdentifierName`)
is referenced by `table.go` but its definition is not among the provided
sources.  Per the spec it enforces: non-empty, starts with a letter or
underscore, followed by letters/digits/underscores. -/
def validIdentifierName (s : String) : Bool :=
  match s.toList with
  | [] => false
  | c :: cs => (c.isAlpha || c == '_') && cs.all (fun d => d.isAlphanum || d == '_')

/-- Modelled from the spec: the external `Column` collaborator (its file is
not among the provided sources).  Per the spec a column supports binding to
a table name (`setTableName`, mutating its bound-name back-reference) and
exposes the bound name; `BaseColumn.tableName` is that bound name, returned
by the Go `TableName()` accessor used at `table.go:70`. -/
structure BaseColumn where
  name : String
  tableName : String
deriving DecidableEq

/-- The heap of column objects: Go columns are pointers, modelled as indices
into this store. -/
abbrev ColStore := List BaseColumn

/-- Modelled from the spec: `Column.setTableName` rebinds the column's
table-name back-reference in place; here, it updates the cell `r` of the
store.  The spec gives it no failure mode. -/
def storeSetTableName : ColStore → Nat → String → ColStore
  | [], _, _ => []
  | c :: w, 0, n => { c with tableName := n } :: w
  | c :: w, r + 1, n => c :: storeSetTableName w r n

/-- Outcome of a Go function that may `panic`: either a value or an abrupt
termination carrying the panic message.  A panic is not a recoverable error
value returned to the caller. -/
inductive GoResult (α : Type) where
  | ok : α → GoResult α
  | panicked : String → GoResult α
deriving DecidableEq

/-- `Table` struct of `table.go:80`.  `columns` holds references into the
column store (Go: a slice of `Column` interface values); `columnLookup`
models the Go map as an association list where the most recent insertion
stands first. -/
structure Table where
  schemaName : String
  name : String
  «alias» : String
  columns : List Nat
  columnLookup : List (String × Nat)
  forcedIndex : String
deriving DecidableEq

/-- Go map insertion is modelled by prepending; lookup finds the most
recent insertion for a key (last write wins). -/
def mapLookup : List (String × Nat) → String → Option Nat
  | [], _ => none
  | (k, r) :: rest, key => if k == key then some r else mapLookup rest key

/-- The construction loop of `NewTable` (`table.go:65`): for each column,
bind it to the table name (`c.setTableName(name)`), then insert it into the
lookup map keyed by its bound name (`t.columnLookup[c.TableName()] = c`). -/
def bindColumns : List Nat → String → ColStore → List (String × Nat) →
    ColStore × List (String × Nat)
  | [], _, w, lk => (w, lk)
  | r :: rest, name, w, lk =>
    let w2 := storeSetTableName w r name
    let key := (w2[r]?.map BaseColumn.tableName).getD ""
    bindColumns rest name w2 ((key, r) :: lk)

/-- `NewTable` (`table.go:54`): panics on an invalid table name, binds and
indexes every column, then panics if the column list is empty. -/
def NewTable (schemaName name : String) (columns : List Nat) (w : ColStore) :
    GoResult (Table × ColStore) :=
  if !validIdentifierName name then
    .panicked "Invalid tableName name"
  else
    let p := bindColumns columns name w []
    if columns.length == 0 then
      .panicked ("Table " ++ name ++ " has no columns")
    else
      .ok ({ schemaName := schemaName, name := name, «alias» := "",
             columns := columns, columnLookup := p.2, forcedIndex := "" }, p.1)

/-- `Table.getColumn` (`table.go:91`): map lookup, or a recoverable error. -/
def Table.getColumn (t : Table) (name : String) : Except String Nat :=
  match mapLookup t.columnLookup name with
  | some r => .ok r
  | none =>
    .error ("No such column \x27" ++ name ++ "\x27 in tableName \x27" ++ t.name ++ "\x27")

/-- `Table.SetAlias` (`table.go:118`): sets the alias field of the receiver
and rebinds every owned column's table-name reference in place. -/
def Table.SetAlias (t : Table) («alias» : String) (w : ColStore) : Table × ColStore :=
  ({ t with «alias» := «alias» },
   t.columns.foldl (fun w r => storeSetTableName w r «alias») w)

/-- `Table.TableName` (`table.go:135`). -/
def Table.TableName (t : Table) : String := t.name

/-- `Table.SchemaName` (`table.go:130`). -/
def Table.SchemaName (t : Table) : String := t.schemaName

/-- `Table.Columns` (`table.go:144`). -/
def Table.Columns (t : Table) : List Nat := t.columns

/-- `Table.ForceIndex` (`table.go:149`): a shallow struct copy with only the
forced-index field replaced; the column slice and lookup map headers are
copied as-is, so they keep referencing the same cells. -/
def Table.ForceIndex (t : Table) (index : String) : Table :=
  { t with forcedIndex := index }

/-- `Table.SerializeSql` (`table.go:157`): validates the schema name, writes
`schema.name`, appends ` AS alias` when the alias is non-empty, and appends
` FORCE INDEX (idx)` when the forced index is non-empty and valid.  The
result pairs the buffer contents with the returned error, if any. -/
def Table.SerializeSql (t : Table) (out : String) : String × Option String :=
  if !validIdentifierName t.schemaName then
    (out, some "Invalid database name specified")
  else
    let out1 := out ++ t.schemaName ++ "." ++ t.TableName
    let out2 := if t.«alias».length > 0 then out1 ++ " AS " ++ t.«alias» else out1
    if t.forcedIndex != "" then
      if !validIdentifierName t.forcedIndex then
        (out2, some ("\x27" ++ t.forcedIndex ++ "\x27 is not a valid identifier for an index"))
      else
        (out2 ++ " FORCE INDEX (" ++ t.forcedIndex ++ ")", none)
    else
      (out2, none)

/-- `joinType` (`table.go:240`). -/
inductive joinType where
  | INNER_JOIN
  | LEFT_JOIN
  | RIGHT_JOIN
  | FULL_JOIN
  | CROSS_JOIN
deriving DecidableEq

/-- Modelled from the spec: the external `BoolExpression` collaborator (its
file is not among the provided sources).  Per the spec it only has to
serialize itself as a boolean SQL fragment; the model lets it either append
its fragment or fail with an error. -/
structure BoolExpression where
  frag : String
  err : Option String
deriving DecidableEq

/-- Modelled from the spec: serialization of a join condition appends its
fragment to the buffer, or fails with its error. -/
def BoolExpression.SerializeSql (b : BoolExpression) (out : String) :
    String × Option String :=
  match b.err with
  | some e => (out, some e)
  | none => (out ++ b.frag, none)

/-- A `ReadableTable` interface value: nil, a physical `*Table`, or a
`*joinTable` (`table.go:251`).  `nilTable` models Go's nil interface
value, which join serialization guards against. -/
inductive ReadableTable where
  | nilTable : ReadableTable
  | table : Table → ReadableTable
  | join : ReadableTable → ReadableTable → joinType → Option BoolExpression → ReadableTable
deriving DecidableEq

/-- `newJoinTable` (`table.go:258`): stores the operands and kind without
any validation. -/
def newJoinTable (lhs rhs : ReadableTable) (join_type : joinType)
    (onCondition : Option BoolExpression) : ReadableTable :=
  .join lhs rhs join_type onCondition

/-- `InnerJoinOn` (`table.go:272`). -/
def InnerJoinOn (lhs rhs : ReadableTable) (onCondition : Option BoolExpression) :
    ReadableTable :=
  newJoinTable lhs rhs .INNER_JOIN onCondition

/-- `LeftJoinOn` (`table.go:280`). -/
def LeftJoinOn (lhs rhs : ReadableTable) (onCondition : Option BoolExpression) :
    ReadableTable :=
  newJoinTable lhs rhs .LEFT_JOIN onCondition

/-- `RightJoinOn` (`table.go:288`). -/
def RightJoinOn (lhs rhs : ReadableTable) (onCondition : Option BoolExpression) :
    ReadableTable :=
  newJoinTable lhs rhs .RIGHT_JOIN onCondition

/-- `FullJoin` (`table.go:296`). -/
def FullJoin (lhs rhs : ReadableTable) (onCondition : Option BoolExpression) :
    ReadableTable :=
  newJoinTable lhs rhs .FULL_JOIN onCondition

/-- `CrossJoin` (`table.go:304`): always passes a nil condition. -/
def CrossJoin (lhs rhs : ReadableTable) : ReadableTable :=
  newJoinTable lhs rhs .CROSS_JOIN none

/-- The keyword switch of `joinTable.SerializeSql` (`table.go:348`). -/
def joinKeyword : joinType → String
  | .INNER_JOIN => " JOIN "
  | .LEFT_JOIN => " LEFT JOIN "
  | .RIGHT_JOIN => " RIGHT JOIN "
  | .FULL_JOIN => " FULL JOIN "
  | .CROSS_JOIN => " CROSS JOIN "

/-- Serialization of a relation.  The `table` case is `Table.SerializeSql`
(`table.go:157`); the `join` case is `joinTable.SerializeSql`
(`table.go:332`): nil-operand and missing-condition checks first (failing
with the partial buffer intact and quoted in the message), then lhs, the
kind's keyword, rhs, and the ` ON ` condition when present.  The
`nilTable` case is unreachable through those guards (in Go, invoking the
method on a nil interface would fault; the guards run first). -/
def ReadableTable.SerializeSql : ReadableTable → String → String × Option String
  | .nilTable, out => (out, some "nil ReadableTable")
  | .table t, out => Table.SerializeSql t out
  | .join lhs rhs jt cond, out =>
    if lhs = .nilTable then
      (out, some ("nil lhs.  Generated sql: " ++ out))
    else if rhs = .nilTable then
      (out, some ("nil rhs.  Generated sql: " ++ out))
    else if cond = none ∧ jt ≠ .CROSS_JOIN then
      (out, some ("nil onCondition.  Generated sql: " ++ out))
    else
      match ReadableTable.SerializeSql lhs out with
      | (o1, some e) => (o1, some e)
      | (o1, none) =>
        match ReadableTable.SerializeSql rhs (o1 ++ joinKeyword jt) with
        | (o2, some e) => (o2, some e)
        | (o2, none) =>
          match cond with
          | some c => BoolExpression.SerializeSql c (o2 ++ " ON ")
          | none => (o2, none)

/-- `joinTable.SchemaName` (`table.go:312`) and `Table.SchemaName`
(`table.go:130`) seen through the interface. -/
def ReadableTable.SchemaName : ReadableTable → String
  | .nilTable => ""
  | .table t => t.schemaName
  | .join _ _ _ _ => ""

/-- `joinTable.TableName` (`table.go:316`) and `Table.TableName`
(`table.go:135`) seen through the interface. -/
def ReadableTable.TableName : ReadableTable → String
  | .nilTable => ""
  | .table t => t.name
  | .join _ _ _ _ => ""

/-! ### Helper lemmas -/

theorem str_append_cancel_left {a b c : String} (h : a ++ b = a ++ c) : b = c := by
  apply String.ext
  have h2 := congrArg String.data h
  rw [String.data_append, String.data_append] at h2
  exact List.append_cancel_left h2

theorem str_length_pos_iff (s : String) : 0 < s.length ↔ s ≠ "" := by
  constructor
  · intro h he
    subst he
    simp at h
  · intro h
    rcases s with ⟨data⟩
    cases data with
    | nil => exact absurd rfl h
    | cons c cs => simp [String.length]

theorem table_ser_shift (t : Table) (out : String) :
    Table.SerializeSql t out
      = (out ++ (Table.SerializeSql t "").1, (Table.SerializeSql t "").2) := by
  unfold Table.SerializeSql
  by_cases hs : validIdentifierName t.schemaName
  · by_cases ha : 0 < t.«alias».length
    · by_cases hf : t.forcedIndex = ""
      · simp [hs, ha, hf, String.append_assoc, String.empty_append]
      · by_cases hv : validIdentifierName t.forcedIndex
        · simp [hs, ha, hf, hv, String.append_assoc, String.empty_append]
        · simp [hs, ha, hf, hv, String.append_assoc, String.empty_append]
    · by_cases hf : t.forcedIndex = ""
      · simp [hs, ha, hf, String.append_assoc, String.empty_append]
      · by_cases hv : validIdentifierName t.forcedIndex
        · simp [hs, ha, hf, hv, String.append_assoc, String.empty_append]
        · simp [hs, ha, hf, hv, String.append_assoc, String.empty_append]
  · simp [hs, String.append_empty]

theorem getElem?_storeSetTableName_self (w : ColStore) (r : Nat) (n : String) :
    (storeSetTableName w r n)[r]?
      = w[r]?.map (fun c => { c with tableName := n }) := by
  induction w generalizing r with
  | nil => cases r <;> rfl
  | cons c w ih =>
    cases r with
    | zero => simp [storeSetTableName]
    | succ r => simpa [storeSetTableName] using ih r

theorem getElem?_storeSetTableName_ne (w : ColStore) (r r' : Nat) (n : String)
    (h : r' ≠ r) : (storeSetTableName w r n)[r']? = w[r']? := by
  induction w generalizing r r' with
  | nil => cases r' <;> rfl
  | cons c w ih =>
    cases r with
    | zero =>
      cases r' with
      | zero => exact absurd rfl h
      | succ r' => simp [storeSetTableName]
    | succ r =>
      cases r' with
      | zero => simp [storeSetTableName]
      | succ r' => simpa [storeSetTableName] using ih r r' (by omega)

theorem length_storeSetTableName (w : ColStore) (r : Nat) (n : String) :
    (storeSetTableName w r n).length = w.length := by
  induction w generalizing r with
  | nil => rfl
  | cons c w ih => cases r with
    | zero => rfl
    | succ r => simp [storeSetTableName, ih]

theorem foldl_storeSet_getElem? (refs : List Nat) (a : String) (w : ColStore) (r : Nat) :
    (refs.foldl (fun w r => storeSetTableName w r a) w)[r]?
      = if r ∈ refs then w[r]?.map (fun c => { c with tableName := a })
        else w[r]? := by
  induction refs generalizing w with
  | nil => simp
  | cons r0 rest ih =>
    simp only [List.foldl_cons]
    rw [ih]
    by_cases hmem : r ∈ rest
    · by_cases hr0 : r = r0
      · subst hr0
        rw [getElem?_storeSetTableName_self, Option.map_map]
        simp only [hmem, if_true, List.mem_cons, true_or]
        cases h : w[r]? <;> rfl
      · simp [hmem, getElem?_storeSetTableName_ne w r0 r a hr0]
    · by_cases hr0 : r = r0
      · subst hr0
        simp [hmem, getElem?_storeSetTableName_self]
      · simp [hmem, hr0, getElem?_storeSetTableName_ne w r0 r a hr0]

theorem foldl_storeSet_length (refs : List Nat) (a : String) (w : ColStore) :
    (refs.foldl (fun w r => storeSetTableName w r a) w).length = w.length := by
  induction refs generalizing w with
  | nil => rfl
  | cons r0 rest ih => simp [List.foldl_cons, ih, length_storeSetTableName]

theorem bindColumns_fst (refs : List Nat) (n : String) (w : ColStore)
    (lk : List (String × Nat)) :
    (bindColumns refs n w lk).1 = refs.foldl (fun w r => storeSetTableName w r n) w := by
  induction refs generalizing w lk with
  | nil => rfl
  | cons r0 rest ih => simp [bindColumns, List.foldl_cons, ih]

theorem bindColumns_snd (refs : List Nat) (n : String) (w : ColStore)
    (lk : List (String × Nat)) (hv : ∀ r ∈ refs, r < w.length) :
    (bindColumns refs n w lk).2 = (refs.map (fun r => (n, r))).reverse ++ lk := by
  induction refs generalizing w lk with
  | nil => rfl
  | cons r0 rest ih =>
    have hr0 : r0 < w.length := hv r0 (by simp)
    have hw : w[r0]? = some (w.get ⟨r0, hr0⟩) := by
      rw [List.getElem?_eq_getElem hr0]
      rfl
    have hkey : (((storeSetTableName w r0 n)[r0]?).map BaseColumn.tableName).getD "" = n := by
      rw [getElem?_storeSetTableName_self, hw]
      rfl
    simp only [bindColumns, hkey]
    rw [ih]
    · simp
    · intro r hr
      rw [length_storeSetTableName]
      exact hv r (by simp [hr])

theorem mapLookup_append (l1 l2 : List (String × Nat)) (k : String) :
    mapLookup (l1 ++ l2) k
      = match mapLookup l1 k with
        | some v => some v
        | none => mapLookup l2 k := by
  induction l1 with
  | nil => simp [mapLookup]
  | cons p rest ih =>
    rcases p with ⟨k2, r⟩
    by_cases hk : k2 == k
    · simp [mapLookup, hk]
    · simp only [List.cons_append, mapLookup, hk, Bool.false_eq_true, if_false]
      exact ih

theorem mapLookup_reverse_map_const (refs : List Nat) (n : String) :
    mapLookup ((refs.map (fun r => (n, r))).reverse) n = refs.getLast? := by
  induction refs with
  | nil => rfl
  | cons r0 rest ih =>
    simp only [List.map_cons, List.reverse_cons]
    rw [mapLookup_append]
    rw [ih]
    cases h : rest.getLast? with
    | some v => simp [List.getLast?_cons, h]
    | none =>
      have hrest : rest = [] := by
        by_contra hne
        have hs := List.getLast?_isSome.mpr hne
        rw [h] at hs
        simp at hs
      subst hrest
      simp [mapLookup]

theorem join_ser_eq (l r : ReadableTable) (jt : joinType) (cond : Option BoolExpression)
    (hl : l ≠ .nilTable) (hr : r ≠ .nilTable)
    (hc : ¬(cond = none ∧ jt ≠ .CROSS_JOIN)) (out : String) :
    (ReadableTable.join l r jt cond).SerializeSql out =
      match l.SerializeSql out with
      | (o1, some e) => (o1, some e)
      | (o1, none) =>
        match r.SerializeSql (o1 ++ joinKeyword jt) with
        | (o2, some e) => (o2, some e)
        | (o2, none) =>
          match cond with
          | some c => c.SerializeSql (o2 ++ " ON ")
          | none => (o2, none)
  := by
  conv_lhs => rw [ReadableTable.SerializeSql]
  rw [if_neg hl, if_neg hr, if_neg hc]
  cases cond <;> rfl

theorem ser_extends (r : ReadableTable) :
    ∀ (out o : String), r.SerializeSql out = (o, none) → ∃ d, o = out ++ d := by
  induction r with
  | nilTable =>
    intro out o h
    simp [ReadableTable.SerializeSql] at h
  | table t =>
    intro out o h
    simp only [ReadableTable.SerializeSql] at h
    rw [table_ser_shift, Prod.mk.injEq] at h
    exact ⟨(Table.SerializeSql t "").1, h.1.symm⟩
  | join l rr jt cond ihl ihr =>
    intro out o h
    by_cases hl : l = ReadableTable.nilTable
    · simp [ReadableTable.SerializeSql, hl] at h
    by_cases hrr : rr = ReadableTable.nilTable
    · simp [ReadableTable.SerializeSql, hl, hrr] at h
    by_cases hc : cond = none ∧ jt ≠ joinType.CROSS_JOIN
    · simp [ReadableTable.SerializeSql, hl, hrr, hc] at h
    rw [join_ser_eq l rr jt cond hl hrr hc] at h
    split at h
    · simp at h
    · rename_i o1 heq1
      split at h
      · simp at h
      · rename_i o2 heq2
        obtain ⟨d1, hd1⟩ := ihl out o1 heq1
        obtain ⟨d2, hd2⟩ := ihr (o1 ++ joinKeyword jt) o2 heq2
        cases cond with
        | none =>
          rw [Prod.mk.injEq] at h
          exact ⟨d1 ++ joinKeyword jt ++ d2,
            by rw [← h.1, hd2, hd1]; simp [String.append_assoc]⟩
        | some c =>
          cases hce : c.err with
          | some e => simp [BoolExpression.SerializeSql, hce] at h
          | none =>
            simp only [BoolExpression.SerializeSql, hce] at h
            rw [Prod.mk.injEq] at h
            exact ⟨d1 ++ joinKeyword jt ++ d2 ++ " ON " ++ c.frag,
              by rw [← h.1, hd2, hd1]; simp [String.append_assoc]⟩

theorem ser_shift (r : ReadableTable) :
    ∀ (out1 out2 s : String), r.SerializeSql out1 = (out1 ++ s, none) →
      r.SerializeSql out2 = (out2 ++ s, none) := by
  induction r with
  | nilTable =>
    intro out1 out2 s h
    simp [ReadableTable.SerializeSql] at h
  | table t =>
    intro out1 out2 s h
    simp only [ReadableTable.SerializeSql] at h ⊢
    rw [table_ser_shift, Prod.mk.injEq] at h
    have hs : s = (Table.SerializeSql t "").1 := (str_append_cancel_left h.1).symm
    rw [table_ser_shift t out2, hs, h.2]
  | join l rr jt cond ihl ihr =>
    intro out1 out2 s h
    by_cases hl : l = ReadableTable.nilTable
    · simp [ReadableTable.SerializeSql, hl] at h
    by_cases hrr : rr = ReadableTable.nilTable
    · simp [ReadableTable.SerializeSql, hl, hrr] at h
    by_cases hc : cond = none ∧ jt ≠ joinType.CROSS_JOIN
    · simp [ReadableTable.SerializeSql, hl, hrr, hc] at h
    rw [join_ser_eq l rr jt cond hl hrr hc] at h
    rw [join_ser_eq l rr jt cond hl hrr hc out2]
    split at h
    · simp at h
    · rename_i o1 heq1
      split at h
      · simp at h
      · rename_i o2 heq2
        obtain ⟨d1, hd1⟩ := ser_extends l out1 o1 heq1
        subst hd1
        obtain ⟨d2, hd2⟩ := ser_extends rr ((out1 ++ d1) ++ joinKeyword jt) o2 heq2
        subst hd2
        have hl2 : l.SerializeSql out2 = (out2 ++ d1, none) := ihl out1 out2 d1 heq1
        have hr2 : rr.SerializeSql ((out2 ++ d1) ++ joinKeyword jt)
            = (((out2 ++ d1) ++ joinKeyword jt) ++ d2, none) :=
          ihr ((out1 ++ d1) ++ joinKeyword jt) ((out2 ++ d1) ++ joinKeyword jt) d2 heq2
        rw [hl2]
        dsimp only
        rw [hr2]
        dsimp only
        cases cond with
        | none =>
          dsimp only at h
          rw [Prod.mk.injEq] at h
          have hs : s = d1 ++ (joinKeyword jt ++ d2) := by
            apply str_append_cancel_left (a := out1)
            rw [← h.1]
            simp [String.append_assoc]
          rw [hs]
          simp [String.append_assoc]
        | some c =>
          dsimp only at h
          cases hce : c.err with
          | some e => simp [BoolExpression.SerializeSql, hce] at h
          | none =>
            simp only [BoolExpression.SerializeSql, hce] at h ⊢
            rw [Prod.mk.injEq] at h
            have hs : s = d1 ++ (joinKeyword jt ++ (d2 ++ (" ON " ++ c.frag))) := by
              apply str_append_cancel_left (a := out1)
              rw [← h.1]
              simp [String.append_assoc]
            rw [hs]
            simp [String.append_assoc]

theorem pair_match_eta (p : String × Option String) :
    (match p with
     | (o, some e) => (o, some e)
     | (o, none) => (o, none)) = p := by
  rcases p with ⟨o, _ | e⟩ <;> rfl

/-- Claim C5: join construction performs no validation (it returns the
composite unchanged and never fails), and serialization fails immediately,
leaving the buffer exactly as it was, whenever the left operand is nil, the
right operand is nil, or the condition is nil for a non-CROSS kind. -/
theorem claim_C5 : ∀ (lhs rhs : ReadableTable) (jt : joinType)
    (cond : Option BoolExpression) (out : String),
    lhs = .nilTable ∨ rhs = .nilTable ∨ (cond = none ∧ jt ≠ .CROSS_JOIN) →
    newJoinTable lhs rhs jt cond = .join lhs rhs jt cond ∧
    ∃ e, (newJoinTable lhs rhs jt cond).SerializeSql out = (out, some e) := by
  intro lhs rhs jt cond out h
  refine ⟨rfl, ?_⟩
  by_cases hl : lhs = ReadableTable.nilTable
  · exact ⟨"nil lhs.  Generated sql: " ++ out,
      by simp [newJoinTable, ReadableTable.SerializeSql, hl]⟩
  by_cases hr : rhs = ReadableTable.nilTable
  · exact ⟨"nil rhs.  Generated sql: " ++ out,
      by simp [newJoinTable, ReadableTable.SerializeSql, hl, hr]⟩
  have hc : cond = none ∧ jt ≠ .CROSS_JOIN := by
    rcases h with h | h | h
    · exact absurd h hl
    · exact absurd h hr
    · exact h
  exact ⟨"nil onCondition.  Generated sql: " ++ out,
    by simp [newJoinTable, ReadableTable.SerializeSql, hl, hr, hc.1, hc.2]⟩

/-- Claim C5 witness: a concrete inner join with a nil left operand is
constructed without failure and fails at serialize time with the buffer
unconsumed. -/
theorem claim_C5_witness :
    newJoinTable .nilTable
        (.table { schemaName := "s", name := "b", «alias» := "", columns := [],
                  columnLookup := [], forcedIndex := "" }) .INNER_JOIN none
      = .join .nilTable
          (.table { schemaName := "s", name := "b", «alias» := "", columns := [],
                    columnLookup := [], forcedIndex := "" }) .INNER_JOIN none ∧
    ∃ e, (newJoinTable .nilTable
        (.table { schemaName := "s", name := "b", «alias» := "", columns := [],
                  columnLookup := [], forcedIndex := "" }) .INNER_JOIN none).SerializeSql "x"
      = ("x", some e) :=
  claim_C5 .nilTable
    (.table { schemaName := "s", name := "b", «alias» := "", columns := [],
              columnLookup := [], forcedIndex := "" }) .INNER_JOIN none "x" (Or.inl rfl)

/-- Claim C6: serializing a `CrossJoin` composite takes the nil guards and
then emits exactly the left operand's serialization, the literal
`" CROSS JOIN "`, and the right operand's serialization: the condition is
nil by construction, so the `" ON "` branch of serialization is never
taken and the cross-join node itself never emits `" ON "`. -/
theorem claim_C6 : ∀ (a b : ReadableTable) (out : String),
    (CrossJoin a b).SerializeSql out =
      if a = .nilTable then (out, some ("nil lhs.  Generated sql: " ++ out))
      else if b = .nilTable then (out, some ("nil rhs.  Generated sql: " ++ out))
      else
        match a.SerializeSql out with
        | (o1, some e) => (o1, some e)
        | (o1, none) => b.SerializeSql (o1 ++ " CROSS JOIN ") := by
  intro a b out
  by_cases ha : a = ReadableTable.nilTable
  · simp [CrossJoin, newJoinTable, ReadableTable.SerializeSql, ha]
  by_cases hb : b = ReadableTable.nilTable
  · simp [CrossJoin, newJoinTable, ReadableTable.SerializeSql, ha, hb]
  rw [if_neg ha, if_neg hb]
  show (ReadableTable.join a b .CROSS_JOIN none).SerializeSql out = _
  rw [join_ser_eq a b .CROSS_JOIN none ha hb (by simp)]
  cases hsa : a.SerializeSql out with
  | mk o1 e1 =>
    cases e1 with
    | some e => rfl
    | none =>
      show (match b.SerializeSql (o1 ++ joinKeyword .CROSS_JOIN) with
            | (o2, some e) => (o2, some e)
            | (o2, none) => (o2, none)) = _
      exact pair_match_eta (b.SerializeSql (o1 ++ " CROSS JOIN "))

/-- Claim C7: serialization of a physical table succeeds exactly when the
schema name passes identifier validation and any non-empty forced index
passes identifier validation; an invalid identifier at either emitted
position (e.g. one containing a semicolon) makes serialization fail. -/
theorem claim_C7 : ∀ (t : Table) (out : String),
    (Table.SerializeSql t out).2 = none ↔
      (validIdentifierName t.schemaName = true ∧
        (t.forcedIndex ≠ "" → validIdentifierName t.forcedIndex = true)) := by
  intro t out
  unfold Table.SerializeSql
  by_cases hs : validIdentifierName t.schemaName
  · by_cases hf : t.forcedIndex = ""
    · simp [hs, hf]
    · by_cases hv : validIdentifierName t.forcedIndex
      · simp [hs, hf, hv]
      · simp [hs, hf, hv]
  · simp [hs]

/-- Claim C8: `ForceIndex` returns a table value whose forced-index field is
the given index and whose every other field (schema, name, alias, column
slice, lookup map) is that of the original; replacing the forced index by
the original's own forced index reproduces the original exactly, so nothing
but that one field differs.  The original value is untouched: `ForceIndex`
consumes no column store, so the original's serialization cannot change. -/
theorem claim_C8 : ∀ (t : Table) (index : String),
    (t.ForceIndex index).forcedIndex = index ∧
    (t.ForceIndex index).schemaName = t.schemaName ∧
    (t.ForceIndex index).name = t.name ∧
    (t.ForceIndex index).«alias» = t.«alias» ∧
    (t.ForceIndex index).columns = t.columns ∧
    (t.ForceIndex index).columnLookup = t.columnLookup ∧
    t.ForceIndex t.forcedIndex = t := by
  intro t index
  exact ⟨rfl, rfl, rfl, rfl, rfl, rfl, rfl⟩

/-- Claim C9: the `ForceIndex` copy shares the original's column references
and lookup map; `SetAlias` on the copy has exactly the same effect on the
shared column store as `SetAlias` on the original would (so the rebinding is
observed through both tables), every shared column's bound table name
becomes the new alias, and the alias field changes only on the receiver's
returned struct. -/
theorem claim_C9 : ∀ (t : Table) (idx a : String) (w : ColStore),
    (∀ r ∈ t.columns, r < w.length) →
    (t.ForceIndex idx).columns = t.columns ∧
    (t.ForceIndex idx).columnLookup = t.columnLookup ∧
    (Table.SetAlias (t.ForceIndex idx) a w).2 = (Table.SetAlias t a w).2 ∧
    (Table.SetAlias (t.ForceIndex idx) a w).1
      = { t with forcedIndex := idx, «alias» := a } ∧
    (Table.SetAlias t a w).1 = { t with «alias» := a } ∧
    (∀ r ∈ t.columns,
      ((Table.SetAlias (t.ForceIndex idx) a w).2[r]?.map BaseColumn.tableName)
        = some a) := by
  intro t idx a w hv
  refine ⟨rfl, rfl, rfl, rfl, rfl, ?_⟩
  intro r hr
  show ((t.columns.foldl (fun w r => storeSetTableName w r a) w)[r]?.map
    BaseColumn.tableName) = some a
  rw [foldl_storeSet_getElem?, if_pos hr,
    List.getElem?_eq_getElem (hv r hr)]
  rfl

/-- Claim C9 witness: a concrete table with one column at store cell 0;
after `SetAlias` on the `ForceIndex` copy, the shared cell's bound table
name is the new alias. -/
theorem claim_C9_witness :
    ((Table.SetAlias
        (Table.ForceIndex
          { schemaName := "s", name := "t", «alias» := "", columns := [0],
            columnLookup := [("t", 0)], forcedIndex := "" } "i") "al"
        [{ name := "c", tableName := "t" }]).2[0]?.map BaseColumn.tableName)
      = some "al" :=
  (claim_C9
    { schemaName := "s", name := "t", «alias» := "", columns := [0],
      columnLookup := [("t", 0)], forcedIndex := "" } "i" "al"
    [{ name := "c", tableName := "t" }] (by decide)).2.2.2.2.2 0 (by decide)

/-- Claim C10: a join composite's interface accessors `SchemaName` and
`TableName` return the empty string, whatever the joined relations are. -/
theorem claim_C10 : ∀ (lhs rhs : ReadableTable) (jt : joinType)
    (cond : Option BoolExpression),
    (ReadableTable.join lhs rhs jt cond).SchemaName = "" ∧
    (ReadableTable.join lhs rhs jt cond).TableName = "" :=
  fun _ _ _ _ => ⟨rfl, rfl⟩

/-- Claim C1 counterexample: constructing a table with an empty column list
does not report a recoverable error value to the caller; `NewTable`
terminates abruptly (a Go `panic`, per its own doc comment at
`table.go:53`). -/
theorem claim_C1_counterexample :
    NewTable "s" "t" [] [] = .panicked "Table t has no columns" := by decide

/-- Claim C1 (amended): column lookup and serialization report violated
preconditions as recoverable error values, but table construction with an
invalid name or an empty column list terminates abruptly via panic instead
of returning an error value to the caller. -/
theorem claim_C1_amended : ∀ (sn n : String) (refs : List Nat) (w : ColStore)
    (t : Table) (nm out : String),
    (validIdentifierName n = false →
      NewTable sn n refs w = .panicked "Invalid tableName name") ∧
    (validIdentifierName n = true → refs = [] →
      NewTable sn n refs w = .panicked ("Table " ++ n ++ " has no columns")) ∧
    (mapLookup t.columnLookup nm = none →
      Table.getColumn t nm
        = .error ("No such column \x27" ++ nm ++ "\x27 in tableName \x27" ++ t.name ++ "\x27")) ∧
    (validIdentifierName t.schemaName = false →
      Table.SerializeSql t out = (out, some "Invalid database name specified")) := by
  intro sn n refs w t nm out
  refine ⟨?_, ?_, ?_, ?_⟩
  · intro h
    simp [NewTable, h]
  · intro h he
    subst he
    simp [NewTable, h, bindColumns]
  · intro h
    simp [Table.getColumn, h]
  · intro h
    simp [Table.SerializeSql, h]

/-- Claim C1 witness: at concrete inputs, empty-column construction panics
while a failed lookup returns a recoverable error value. -/
theorem claim_C1_amended_witness :
    NewTable "db" "users" [] [] = .panicked "Table users has no columns" ∧
    Table.getColumn
        { schemaName := "db", name := "users", «alias» := "", columns := [],
          columnLookup := [], forcedIndex := "" } "id"
      = .error "No such column \x27id\x27 in tableName \x27users\x27" :=
  ⟨(claim_C1_amended "db" "users" [] []
      { schemaName := "db", name := "users", «alias» := "", columns := [],
        columnLookup := [], forcedIndex := "" } "id" "").2.1 (by decide) rfl,
   (claim_C1_amended "db" "users" [] []
      { schemaName := "db", name := "users", «alias» := "", columns := [],
        columnLookup := [], forcedIndex := "" } "id" "").2.2.1 (by decide)⟩

/-- Claim C2: for a table constructed with N columns among which two bind to
the same name, the ordered column list returned by `Columns` retains all N
entries in declaration order, and looking the duplicated bound name up
returns the last-declared of the columns carrying it (last write wins in
the construction-time lookup map; with the map keyed by each column's bound
table name, every column shares that key, so the lookup yields the
last-declared column). -/
theorem claim_C2 : ∀ (sn n : String) (refs : List Nat) (w : ColStore)
    (t : Table) (w2 : ColStore) (nm : String) (i j ri rj : Nat),
    NewTable sn n refs w = .ok (t, w2) →
    (∀ r ∈ refs, r < w.length) →
    i ≠ j → refs[i]? = some ri → refs[j]? = some rj →
    w2[ri]?.map BaseColumn.tableName = some nm →
    w2[rj]?.map BaseColumn.tableName = some nm →
    Table.Columns t = refs ∧
    ∃ lastRef, refs.getLast? = some lastRef ∧ Table.getColumn t nm = .ok lastRef := by
  intro sn n refs w t w2 nm i j ri rj hok hv hij hgi hgj hbi hbj
  unfold NewTable at hok
  split at hok
  · exact absurd hok (by simp)
  · split at hok
    · exact absurd hok (by simp)
    · rename_i hlen
      rw [GoResult.ok.injEq, Prod.mk.injEq] at hok
      obtain ⟨ht, hw2⟩ := hok
      have hne : refs ≠ [] := by
        intro he
        subst he
        simp at hlen
      have hri : ri ∈ refs := by
        rw [List.getElem?_eq_some] at hgi
        obtain ⟨hlt, hget⟩ := hgi
        exact hget ▸ List.getElem_mem hlt
      have hnm : nm = n := by
        rw [← hw2, bindColumns_fst, foldl_storeSet_getElem?, if_pos hri,
          List.getElem?_eq_getElem (hv ri hri)] at hbi
        simpa using hbi.symm
      have hcols : t.columns = refs := by rw [← ht]
      have hlook : t.columnLookup = (refs.map (fun r => (n, r))).reverse := by
        rw [← ht]
        show (bindColumns refs n w []).2 = _
        rw [bindColumns_snd refs n w [] hv, List.append_nil]
      obtain ⟨lastRef, hlast⟩ :=
        Option.isSome_iff_exists.mp (List.getLast?_isSome.mpr hne)
      refine ⟨by rw [Table.Columns, hcols], lastRef, hlast, ?_⟩
      rw [Table.getColumn, hlook, hnm, mapLookup_reverse_map_const, hlast]

/-- Claim C2 witness: a concrete two-column table; both columns bind to the
table name "t", the column list keeps both entries in order, and looking
"t" up yields the last-declared column (cell 1). -/
theorem claim_C2_witness :
    Table.Columns
        { schemaName := "s", name := "t", «alias» := "", columns := [0, 1],
          columnLookup := [("t", 1), ("t", 0)], forcedIndex := "" } = [0, 1] ∧
    ∃ lastRef, [0, 1].getLast? = some lastRef ∧
      Table.getColumn
          { schemaName := "s", name := "t", «alias» := "", columns := [0, 1],
            columnLookup := [("t", 1), ("t", 0)], forcedIndex := "" } "t"
        = .ok lastRef :=
  claim_C2 "s" "t" [0, 1]
    [{ name := "c1", tableName := "" }, { name := "c2", tableName := "" }]
    { schemaName := "s", name := "t", «alias» := "", columns := [0, 1],
      columnLookup := [("t", 1), ("t", 0)], forcedIndex := "" }
    [{ name := "c1", tableName := "t" }, { name := "c2", tableName := "t" }]
    "t" 0 1 0 1 (by decide) (by decide) (by decide) (by decide) (by decide)
    (by decide) (by decide)

/-- Claim C3: serializing a physical table whose schema name, name, alias
and forced index are all valid identifiers (empty alias / forced index
meaning unset) writes exactly `schema.name`, then ` AS alias` iff the alias
is non-empty, then ` FORCE INDEX (index)` iff the forced index is
non-empty. -/
theorem claim_C3 : ∀ (t : Table) (out : String),
    validIdentifierName t.schemaName = true →
    validIdentifierName t.name = true →
    (t.«alias» = "" ∨ validIdentifierName t.«alias» = true) →
    (t.forcedIndex = "" ∨ validIdentifierName t.forcedIndex = true) →
    Table.SerializeSql t out =
      (out ++ t.schemaName ++ "." ++ t.name
        ++ (if t.«alias» = "" then "" else " AS " ++ t.«alias»)
        ++ (if t.forcedIndex = "" then ""
            else " FORCE INDEX (" ++ t.forcedIndex ++ ")"),
       none) := by
  intro t out hs hn ha hf
  unfold Table.SerializeSql
  by_cases hae : t.«alias» = ""
  · have hlen : ¬(0 < t.«alias».length) := by
      rw [str_length_pos_iff]
      simp [hae]
    by_cases hfe : t.forcedIndex = ""
    · simp [hs, hae, hfe, hlen, Table.TableName, String.append_assoc,
        String.append_empty]
    · have hfv := hf.resolve_left hfe
      simp [hs, hae, hfe, hfv, hlen, Table.TableName, String.append_assoc,
        String.append_empty]
  · have hlen : 0 < t.«alias».length := (str_length_pos_iff _).mpr hae
    by_cases hfe : t.forcedIndex = ""
    · simp [hs, hae, hfe, hlen, Table.TableName, String.append_assoc,
        String.append_empty]
    · have hfv := hf.resolve_left hfe
      simp [hs, hae, hfe, hfv, hlen, Table.TableName, String.append_assoc,
        String.append_empty]

/-- Claim C3 witness: the schema "s", table "t" with alias "a" serializes to
`s.t AS a`, and with the alias cleared to `s.t`. -/
theorem claim_C3_witness :
    Table.SerializeSql
        { schemaName := "s", name := "t", «alias» := "a", columns := [],
          columnLookup := [], forcedIndex := "" } "" = ("s.t AS a", none) ∧
    Table.SerializeSql
        { schemaName := "s", name := "t", «alias» := "", columns := [],
          columnLookup := [], forcedIndex := "" } "" = ("s.t", none) := by
  constructor
  · have h := claim_C3
      { schemaName := "s", name := "t", «alias» := "a", columns := [],
        columnLookup := [], forcedIndex := "" } "" (by decide) (by decide)
      (Or.inr (by decide)) (Or.inl rfl)
    rw [h]
    decide
  · have h := claim_C3
      { schemaName := "s", name := "t", «alias» := "", columns := [],
        columnLookup := [], forcedIndex := "" } "" (by decide) (by decide)
      (Or.inl rfl) (Or.inl rfl)
    rw [h]
    decide

/-- Claim C4: the nested join `innerJoin(innerJoin(A, B, c1), C, c2)` of
relations that serialize successfully serializes left-to-right as
`<A> JOIN <B> ON <c1> JOIN <C> ON <c2>`. -/
theorem claim_C4 : ∀ (A B C : ReadableTable) (c1 c2 : BoolExpression)
    (sa sb sc : String),
    A.SerializeSql "" = (sa, none) →
    B.SerializeSql "" = (sb, none) →
    C.SerializeSql "" = (sc, none) →
    c1.err = none → c2.err = none →
    (InnerJoinOn (InnerJoinOn A B (some c1)) C (some c2)).SerializeSql "" =
      (sa ++ " JOIN " ++ sb ++ " ON " ++ c1.frag ++ " JOIN " ++ sc ++ " ON " ++ c2.frag,
       none) := by
  intro A B C c1 c2 sa sb sc hA hB hC hc1 hc2
  have hAnil : A ≠ ReadableTable.nilTable := by
    rintro rfl
    simp [ReadableTable.SerializeSql] at hA
  have hBnil : B ≠ ReadableTable.nilTable := by
    rintro rfl
    simp [ReadableTable.SerializeSql] at hB
  have hCnil : C ≠ ReadableTable.nilTable := by
    rintro rfl
    simp [ReadableTable.SerializeSql] at hC
  have hB2 : B.SerializeSql (sa ++ " JOIN ") = ((sa ++ " JOIN ") ++ sb, none) := by
    apply ser_shift B "" (sa ++ " JOIN ") sb
    rw [String.empty_append]
    exact hB
  have hAB : (InnerJoinOn A B (some c1)).SerializeSql ""
      = ((((sa ++ " JOIN ") ++ sb) ++ " ON ") ++ c1.frag, none) := by
    show (ReadableTable.join A B .INNER_JOIN (some c1)).SerializeSql "" = _
    rw [join_ser_eq A B .INNER_JOIN (some c1) hAnil hBnil (by simp)]
    rw [hA]
    show (match B.SerializeSql (sa ++ joinKeyword .INNER_JOIN) with
          | (o2, some e) => (o2, some e)
          | (o2, none) => BoolExpression.SerializeSql c1 (o2 ++ " ON ")) = _
    show (match B.SerializeSql (sa ++ " JOIN ") with
          | (o2, some e) => (o2, some e)
          | (o2, none) => BoolExpression.SerializeSql c1 (o2 ++ " ON ")) = _
    rw [hB2]
    simp [BoolExpression.SerializeSql, hc1]
  have hABnil : InnerJoinOn A B (some c1) ≠ ReadableTable.nilTable := by
    simp [InnerJoinOn, newJoinTable]
  have hC2 : C.SerializeSql (((((sa ++ " JOIN ") ++ sb) ++ " ON ") ++ c1.frag) ++ " JOIN ")
      = ((((((sa ++ " JOIN ") ++ sb) ++ " ON ") ++ c1.frag) ++ " JOIN ") ++ sc, none) := by
    apply ser_shift C "" _ sc
    rw [String.empty_append]
    exact hC
  show (ReadableTable.join (InnerJoinOn A B (some c1)) C .INNER_JOIN (some c2)).SerializeSql ""
    = _
  rw [join_ser_eq (InnerJoinOn A B (some c1)) C .INNER_JOIN (some c2) hABnil hCnil (by simp)]
  rw [hAB]
  show (match C.SerializeSql (((((sa ++ " JOIN ") ++ sb) ++ " ON ") ++ c1.frag)
          ++ joinKeyword .INNER_JOIN) with
        | (o2, some e) => (o2, some e)
        | (o2, none) => BoolExpression.SerializeSql c2 (o2 ++ " ON ")) = _
  show (match C.SerializeSql (((((sa ++ " JOIN ") ++ sb) ++ " ON ") ++ c1.frag)
          ++ " JOIN ") with
        | (o2, some e) => (o2, some e)
        | (o2, none) => BoolExpression.SerializeSql c2 (o2 ++ " ON ")) = _
  rw [hC2]
  simp [BoolExpression.SerializeSql, hc2, String.append_assoc]

/-- Claim C4 witness: three concrete one-table relations and two concrete
conditions; the nested inner join serializes to
`s.a JOIN s.b ON c1 JOIN s.c ON c2`. -/
theorem claim_C4_witness :
    (InnerJoinOn
        (InnerJoinOn
          (.table { schemaName := "s", name := "a", «alias» := "", columns := [],
                    columnLookup := [], forcedIndex := "" })
          (.table { schemaName := "s", name := "b", «alias» := "", columns := [],
                    columnLookup := [], forcedIndex := "" })
          (some { frag := "c1", err := none }))
        (.table { schemaName := "s", name := "c", «alias» := "", columns := [],
                  columnLookup := [], forcedIndex := "" })
        (some { frag := "c2", err := none })).SerializeSql ""
      = ("s.a JOIN s.b ON c1 JOIN s.c ON c2", none) := by
  have h := claim_C4
    (.table { schemaName := "s", name := "a", «alias» := "", columns := [],
              columnLookup := [], forcedIndex := "" })
    (.table { schemaName := "s", name := "b", «alias» := "", columns := [],
              columnLookup := [], forcedIndex := "" })
    (.table { schemaName := "s", name := "c", «alias» := "", columns := [],
              columnLookup := [], forcedIndex := "" })
    { frag := "c1", err := none } { frag := "c2", err := none }
    "s.a" "s.b" "s.c" (by decide) (by decide) (by decide) rfl rfl
  rw [h]
  decide
